import Mathlib

/-!
Verification of the STM32 tickless time-keeping layer
(`arch/arm/src/stm32/stm32_tickless.c`).

The file under `src/` is the tickless wrapper: it owns the singleton
`g_tickless` (one one-shot alarm half and one free-running counter half),
forwards the four public operations `up_timer_initialize`,
`up_timer_gettime`, `up_timer_cancel`, `up_timer_start` to the two
peripheral drivers, and supplies the interrupt-context expiry bridge
`stm32_oneshot_handler`.  The register-level drivers
(`stm32_oneshot_initialize` / `stm32_oneshot_start` /
`stm32_oneshot_cancel`, `stm32_freerun_initialize` /
`stm32_freerun_counter`) are external collaborators whose sources are not
part of this repository snapshot; they are modelled here from the spec's
interface contract (spec sections 4, 6 and 7) and each such definition is
marked `Modelled from the spec:` in its doc comment.

Time is modelled discretely: `Nat` hardware ticks elapsed since boot stand
for real time, and the free-running counter register holds that tick count
modulo its 32-bit wrap width.
-/

namespace Stm32Tickless

/-- The kernel's time representation, `struct timespec`: seconds plus
nanoseconds.  A normalized value keeps `tv_nsec < 1000000000`. -/
structure timespec where
  tv_sec : Nat
  tv_nsec : Nat
deriving DecidableEq

/-- Ordering of timestamps: `a` is no later than `b`. -/
def tsLe (a b : timespec) : Prop :=
  a.tv_sec < b.tv_sec ∨ (a.tv_sec = b.tv_sec ∧ a.tv_nsec ≤ b.tv_nsec)

instance (a b : timespec) : Decidable (tsLe a b) := by
  unfold tsLe; infer_instance

/-- A list of timestamps in non-decreasing order. -/
def tsSorted : List timespec → Prop
  | [] => True
  | [_] => True
  | a :: b :: rest => tsLe a b ∧ tsSorted (b :: rest)

/-- Error taxonomy at the tickless-clock boundary (spec section 7): a fatal
peripheral failure, or a transient refusal to accept a new deadline. -/
inductive Fault
  | HardwareFault
  | BusyFault
deriving DecidableEq

/-- Modelled from the spec: the shared time-unit conversions of the missing
driver sources.  Total microseconds denoted by a `timespec`, truncating
sub-microsecond nanoseconds as the drivers' microsecond granularity does. -/
def usecOfTs (ts : timespec) : Nat :=
  ts.tv_sec * 1000000 + ts.tv_nsec / 1000

/-- Modelled from the spec: microseconds back to a normalized `timespec`
(nanoseconds component in `[0, 1e9)`). -/
def tsOfUsec (u : Nat) : timespec :=
  ⟨u / 1000000, u % 1000000 * 1000⟩

/-- Modelled from the spec: convert a kernel interval to native ticks at
resolution `res` microseconds per tick, rounding up so that the alarm never
fires early; a zero interval maps to zero ticks (immediate expiry). -/
def ticksFromTs (ts : timespec) (res : Nat) : Nat :=
  (usecOfTs ts + res - 1) / res

/-- Modelled from the spec: elapsed ticks rendered as a kernel timestamp at
resolution `res` microseconds per tick. -/
def tsOfTicks (t res : Nat) : timespec :=
  tsOfUsec (t * res)

/-- The free-running counter register wraps at a fixed 32-bit width
(spec section 2, `HardwareCounter`; the STM32 comment block in the source
names 32-bit counters). -/
def WRAP : Nat := 4294967296

/-- Phase of the one-shot alarm half: disarmed, armed with an absolute
deadline in ticks, or compare-match latched with the expiry interrupt not
yet serviced. -/
inductive OneshotPhase
  | idle
  | armed (deadline : Nat)
  | fired
deriving DecidableEq

/-- State of the one-shot alarm driver instance (`struct stm32_oneshot_s`,
fields modelled from the spec's `HardwareAlarm` interface): the timer
channel it was bound to, the shared tick resolution in microseconds, the
alarm phase, and whether the expiry callback has been registered. -/
structure OneshotState where
  chan : Nat
  resolution : Nat
  phase : OneshotPhase
  cbRegistered : Bool
deriving DecidableEq

/-- State of the free-running counter driver instance
(`struct stm32_freerun_s`, fields modelled from the spec's
`HardwareCounter` interface plus the wrap accounting the spec requires of
`gettime`): timer channel, tick resolution, whether the counter is
running, and the software wrap-extension state (last raw register sample
and the accumulated full-wrap offset in ticks). -/
structure FreerunState where
  chan : Nat
  resolution : Nat
  running : Bool
  lastRaw : Nat
  ofs : Nat
deriving DecidableEq

/-- Modelled from the spec: `stm32_oneshot_initialize` (source not in this
snapshot).  Binds channel `chan` at resolution `res` and leaves the alarm
disarmed; a hardware initialization failure is reported as a fault result
(`counter_initialize`/`alarm_initialize -> Result` in spec section 6).
`hwOk` is the hardware outcome of the attempt. -/
def stm32_oneshot_initialize (hwOk : Bool) (chan res : Nat) :
    Except Fault OneshotState :=
  if hwOk then
    .ok { chan := chan, resolution := res, phase := .idle,
          cbRegistered := false }
  else
    .error .HardwareFault

/-- Modelled from the spec: `stm32_freerun_initialize` (source not in this
snapshot).  Binds channel `chan` at resolution `res` and leaves the counter
running from zero. -/
def stm32_freerun_initialize (hwOk : Bool) (chan res : Nat) :
    Except Fault FreerunState :=
  if hwOk then
    .ok { chan := chan, resolution := res, running := true,
          lastRaw := 0, ofs := 0 }
  else
    .error .HardwareFault

/-- Raw counter register value when `e` ticks have elapsed since boot:
the register wraps at `WRAP`. -/
def counterRead (e : Nat) : Nat := e % WRAP

/-- Modelled from the spec: the core of `stm32_freerun_counter` (source
not in this snapshot).  Samples the raw register, extends it past
wrap-around with the software wrap accounting the spec requires ("each
read must account for the counter's wrap width"), and converts the
extended tick count to a kernel timestamp at the fixed resolution. -/
def freerun_counter_core (fr : FreerunState) (e : Nat) :
    FreerunState × timespec :=
  let raw := counterRead e
  let fr' := if raw < fr.lastRaw then
               { fr with ofs := fr.ofs + WRAP, lastRaw := raw }
             else
               { fr with lastRaw := raw }
  (fr', tsOfTicks (fr'.ofs + raw) fr.resolution)

/-- Modelled from the spec: `stm32_freerun_counter` (source not in this
snapshot).  Returns the current time; it has no failure path after
successful initialization (spec sections 4.2 and 7). -/
def stm32_freerun_counter (fr : FreerunState) (e : Nat) :
    Except Fault (FreerunState × timespec) :=
  .ok (freerun_counter_core fr e)

/-- Modelled from the spec: `stm32_oneshot_start` (source not in this
snapshot).  If the peripheral cannot accept a new deadline (`busy`), the
request fails with a busy fault and nothing is retried internally;
otherwise the interval is converted to ticks at the shared resolution,
the callback is registered, and the alarm is armed at `now + ticks`,
superseding whatever was armed before (spec section 4.3). -/
def stm32_oneshot_start (os : OneshotState) (busy : Bool) (now : Nat)
    (ts : timespec) : Except Fault OneshotState :=
  if busy then
    .error .BusyFault
  else
    .ok { os with phase := .armed (now + ticksFromTs ts os.resolution),
                  cbRegistered := true }

/-- Modelled from the spec: `stm32_oneshot_cancel` (source not in this
snapshot).  Atomically disarms the alarm and reports the remaining
interval; the returned flag records whether this call must synchronously
deliver the interval's single expiry notification (spec section 4.4,
race case b).  All three outcome cases return success. -/
def stm32_oneshot_cancel (os : OneshotState) (now : Nat) :
    OneshotState × timespec × Bool :=
  match os.phase with
  | .idle => (os, ⟨0, 0⟩, false)
  | .fired => ({ os with phase := .idle }, ⟨0, 0⟩, true)
  | .armed d =>
      if now < d then
        ({ os with phase := .idle }, tsOfTicks (d - now) os.resolution,
         false)
      else
        ({ os with phase := .idle }, ⟨0, 0⟩, true)

/-- The tickless singleton `g_tickless` (`struct stm32_tickless_s`)
together with the module counter `test_cnt` that sits beside it in the
source file. -/
structure TicklessState where
  oneshot : OneshotState
  freerun : FreerunState
  test_cnt : Nat
deriving DecidableEq

/-- Observable events of the tickless layer: peripheral initialization,
alarm arming and disarming, and the kernel expiry upcall
`sched_timer_expiration`. -/
inductive Event
  | alarmInit (res : Nat)
  | counterInit (res : Nat)
  | alarmArm (deadline : Nat)
  | alarmDisarm
  | schedTimerExpiration
deriving DecidableEq

/-- Whether an event arms the alarm. -/
def Event.isArm : Event → Bool
  | .alarmArm _ => true
  | _ => false

/-- Whether an event disarms (cancels) the alarm. -/
def Event.isDisarm : Event → Bool
  | .alarmDisarm => true
  | _ => false

/-- Whether an event is the kernel expiry notification. -/
def Event.isNotify : Event → Bool
  | .schedTimerExpiration => true
  | _ => false

/-- Expiry bridge `stm32_oneshot_handler` (source lines 259-265): the
interrupt-context callback increments the module counter `test_cnt` and
forwards the event to `sched_timer_expiration`, and does nothing else. -/
def stm32_oneshot_handler (st : TicklessState) :
    TicklessState × List Event :=
  ({ st with test_cnt := st.test_cnt + 1 }, [.schedTimerExpiration])

/-- Build-time configuration consumed by `up_timer_initialize`: the two
Kconfig channel selections and `CONFIG_USEC_PER_TICK`, the shared tick
resolution passed to both drivers. -/
structure Config where
  oneshotTim : Nat
  freerunTim : Nat
  usecPerTick : Nat
deriving DecidableEq

/-- Hardware outcome of the two initialization attempts, an input of the
environment. -/
structure HwEnv where
  oneshotOk : Bool
  freerunOk : Bool
deriving DecidableEq

/-- Outcome of `up_timer_initialize`: either the system was halted by
`PANIC()` or initialization completed with the resulting singleton state
and the list of events performed.  The function has no error return: its
C type is `void`. -/
inductive InitResult
  | panicked
  | completed (s : TicklessState) (evs : List Event)
deriving DecidableEq

/-- Contract portion of `up_timer_initialize` (source lines 296-320):
initialize the one-shot alarm, `PANIC()` on failure; initialize the
free-running counter, `PANIC()` on failure; both receive the same
`CONFIG_USEC_PER_TICK` resolution.  The diagnostic busy-wait start/cancel
sweep at source lines 322-367 is the anomaly that spec section 9 excludes
from the specified design ("excluded from the specified design and should
not be reproduced as part of `initialize`'s contract"); it is therefore
not part of this contract-level definition. -/
def up_timer_initialize (env : HwEnv) (cfg : Config) : InitResult :=
  match stm32_oneshot_initialize env.oneshotOk cfg.oneshotTim
      cfg.usecPerTick with
  | .error _ => .panicked
  | .ok os =>
      match stm32_freerun_initialize env.freerunOk cfg.freerunTim
          cfg.usecPerTick with
      | .error _ => .panicked
      | .ok fr =>
          .completed { oneshot := os, freerun := fr, test_cnt := 0 }
            [.alarmInit cfg.usecPerTick, .counterInit cfg.usecPerTick]

/-- Wrapper `up_timer_gettime` (source lines 403-406): forwards to
`stm32_freerun_counter` on the freerun half of `g_tickless` only.  `e` is
the elapsed hardware tick count standing for the current real time. -/
def up_timer_gettime (st : TicklessState) (e : Nat) :
    Except Fault (TicklessState × timespec) :=
  match stm32_freerun_counter st.freerun e with
  | .error f => .error f
  | .ok (fr', ts) => .ok ({ st with freerun := fr' }, ts)

/-- Wrapper `up_timer_cancel` (source lines 444-447): forwards to
`stm32_oneshot_cancel` on the oneshot half of `g_tickless`.  When the
cancel resolves the expired-race case, the driver delivers the interval's
single notification through the registered callback
`stm32_oneshot_handler`. -/
def up_timer_cancel (st : TicklessState) (now : Nat) :
    Except Fault (TicklessState × timespec × List Event) :=
  let r := stm32_oneshot_cancel st.oneshot now
  let st' : TicklessState := { st with oneshot := r.1 }
  if r.2.2 then
    let h := stm32_oneshot_handler st'
    .ok (h.1, r.2.1, .alarmDisarm :: h.2)
  else
    .ok (st', r.2.1, [.alarmDisarm])

/-- Wrapper `up_timer_start` (source lines 474-477): forwards to
`stm32_oneshot_start` on the oneshot half of `g_tickless`, registering
`stm32_oneshot_handler` as the expiry callback.  `busy` is the hardware
acceptance outcome and `now` the elapsed tick count at the call. -/
def up_timer_start (st : TicklessState) (busy : Bool) (now : Nat)
    (ts : timespec) : Except Fault TicklessState :=
  match stm32_oneshot_start st.oneshot busy now ts with
  | .error f => .error f
  | .ok os' => .ok { st with oneshot := os' }

/-- Interleaving labels for the alarm half: the hardware compare-match
latching at time `t`, the servicing of the latched expiry interrupt, and
a task-context `up_timer_cancel` at time `t`.  Times are elapsed hardware
ticks. -/
inductive Label
  | expire (t : Nat)
  | irq
  | cancel (t : Nat)
deriving DecidableEq

/-- Whether a label is a cancel request. -/
def Label.isCancel : Label → Bool
  | .cancel _ => true
  | _ => false

/-- One step of the alarm-half transition system.  `expire` is enabled
only while the alarm is armed and its deadline has been reached; `irq`
is enabled only while a latched expiry is pending and services it by
disarming and invoking the registered bridge; `cancel` applies
`up_timer_cancel` (which always succeeds).  Disabled steps yield
`none`. -/
def step (st : TicklessState) : Label → Option TicklessState
  | .expire t =>
      match st.oneshot.phase with
      | .armed d =>
          if d ≤ t then
            some { st with oneshot := { st.oneshot with phase := .fired } }
          else
            none
      | _ => none
  | .irq =>
      match st.oneshot.phase with
      | .fired =>
          some (stm32_oneshot_handler
            { st with oneshot := { st.oneshot with phase := .idle } }).1
      | _ => none
  | .cancel t =>
      match up_timer_cancel st t with
      | .ok (st', _, _) => some st'
      | .error _ => none

/-- Run a sequence of labels from a state; `none` as soon as a step is
disabled. -/
def run (st : TicklessState) : List Label → Option TicklessState
  | [] => some st
  | l :: ls =>
      match step st l with
      | some st' => run st' ls
      | none => none

/-- Free-running-counter state as `stm32_freerun_initialize` leaves it on
success: running from a zero register with no wrap offset. -/
def initFreerun (chan res : Nat) : FreerunState :=
  { chan := chan, resolution := res, running := true,
    lastRaw := 0, ofs := 0 }

/-- The wrap-accounting state correctly encodes elapsed tick count `e`:
the offset holds the completed wraps and the last sample is the current
register value. -/
def tracks (fr : FreerunState) (e : Nat) : Prop :=
  fr.ofs = e / WRAP * WRAP ∧ fr.lastRaw = e % WRAP

/-- A read schedule is admissible from previous read time `prev` when the
read times are non-decreasing and consecutive reads are separated by less
than one full counter wrap (the physical requirement for software wrap
extension). -/
def gapsOk (prev : Nat) : List Nat → Bool
  | [] => true
  | e :: es => decide (prev ≤ e) && decide (e - prev < WRAP) && gapsOk e es

/-- The sequence of timestamps produced by successive
`stm32_freerun_counter` reads at the given elapsed tick counts, threading
the driver's wrap-accounting state. -/
def readSeq (fr : FreerunState) : List Nat → List timespec
  | [] => []
  | e :: es =>
      let r := freerun_counter_core fr e
      r.2 :: readSeq r.1 es

/-- Converting microseconds to a timestamp is monotone. -/
lemma tsOfUsec_mono {u0 u1 : Nat} (h : u0 ≤ u1) :
    tsLe (tsOfUsec u0) (tsOfUsec u1) := by
  simp only [tsOfUsec, tsLe]
  omega

/-- The nanoseconds component of a converted timestamp is normalized. -/
lemma tsOfUsec_nsec_lt (u : Nat) : (tsOfUsec u).tv_nsec < 1000000000 := by
  simp only [tsOfUsec]
  omega

/-- Converting ticks to a timestamp at a fixed resolution is monotone. -/
lemma tsOfTicks_mono {t0 t1 : Nat} (res : Nat) (h : t0 ≤ t1) :
    tsLe (tsOfTicks t0 res) (tsOfTicks t1 res) :=
  tsOfUsec_mono (Nat.mul_le_mul_right res h)

/-- A counter read taken less than one wrap after a correctly tracked read
keeps the wrap accounting correct, preserves the resolution, and returns
the timestamp of the true elapsed tick count. -/
lemma freerun_counter_core_spec (fr : FreerunState) (e0 e1 : Nat)
    (h : tracks fr e0) (h01 : e0 ≤ e1) (hw : e1 - e0 < WRAP) :
    tracks (freerun_counter_core fr e1).1 e1 ∧
    (freerun_counter_core fr e1).1.resolution = fr.resolution ∧
    (freerun_counter_core fr e1).2 = tsOfTicks e1 fr.resolution := by
  obtain ⟨ho, hl⟩ := h
  simp only [WRAP] at ho hl hw
  simp only [freerun_counter_core, counterRead, WRAP, tracks, tsOfTicks]
  by_cases hc : e1 % 4294967296 < fr.lastRaw
  · simp only [if_pos hc]
    have he : fr.ofs + 4294967296 + e1 % 4294967296 = e1 := by omega
    refine ⟨⟨by omega, by trivial⟩, by trivial, ?_⟩
    rw [he]
  · simp only [if_neg hc]
    have he : fr.ofs + e1 % 4294967296 = e1 := by omega
    refine ⟨⟨by omega, by trivial⟩, by trivial, ?_⟩
    rw [he]

/-- A non-decreasing list of timestamps remains so after dropping its
head. -/
lemma tsSorted_tail {a : timespec} {l : List timespec}
    (h : tsSorted (a :: l)) : tsSorted l := by
  cases l with
  | nil => trivial
  | cons b rest => exact h.2

/-- Reads threaded from a correctly tracking state along an admissible
schedule yield timestamps that are non-decreasing, starting no earlier
than the timestamp of the last tracked instant. -/
lemma readSeq_sorted_from (res : Nat) :
    ∀ (es : List Nat) (fr : FreerunState) (e0 : Nat),
      fr.resolution = res → tracks fr e0 → gapsOk e0 es = true →
      tsSorted (tsOfTicks e0 res :: readSeq fr es) := by
  intro es
  induction es with
  | nil => intro fr e0 _ _ _; simp [tsSorted]
  | cons e1 rest ih =>
      intro fr e0 hres htr hg
      simp only [gapsOk, Bool.and_eq_true, decide_eq_true_eq] at hg
      obtain ⟨⟨h01, hw⟩, hrest⟩ := hg
      obtain ⟨htr', hres', hts⟩ :=
        freerun_counter_core_spec fr e0 e1 htr h01 hw
      simp only [readSeq]
      rw [hts, hres]
      exact ⟨tsOfTicks_mono res h01,
        ih (freerun_counter_core fr e1).1 e1 (hres'.trans hres) htr' hrest⟩

/-- Every timestamp a read sequence produces has a normalized nanoseconds
component. -/
lemma readSeq_nsec :
    ∀ (es : List Nat) (fr : FreerunState) (ts : timespec),
      ts ∈ readSeq fr es → ts.tv_nsec < 1000000000 := by
  intro es
  induction es with
  | nil => intro fr ts h; simp [readSeq] at h
  | cons e rest ih =>
      intro fr ts h
      simp only [readSeq, List.mem_cons] at h
      rcases h with h | h
      · subst h
        simp only [freerun_counter_core, tsOfTicks]
        exact tsOfUsec_nsec_lt _
      · exact ih _ _ h

/-- Invariant of an armed interval before any cancel: relative to the
armed deadline `d` and the notification count `n` at arming, the alarm is
still armed with count `n`, or latched with count `n`, or serviced (idle)
with count `n + 1`. -/
def NCInv (d n : Nat) (st : TicklessState) : Prop :=
  (st.oneshot.phase = .armed d ∧ st.test_cnt = n) ∨
  (st.oneshot.phase = .fired ∧ st.test_cnt = n) ∨
  (st.oneshot.phase = .idle ∧ st.test_cnt = n + 1)

/-- A non-cancel step (hardware latch or interrupt service) preserves the
armed-interval invariant. -/
lemma step_preserves_NCInv {d n : Nat} {st st' : TicklessState} {l : Label}
    (hl : l.isCancel = false) (hinv : NCInv d n st)
    (hs : step st l = some st') : NCInv d n st' := by
  cases l with
  | expire t =>
      simp only [step] at hs
      rcases hinv with ⟨hp, hc⟩ | ⟨hp, hc⟩ | ⟨hp, hc⟩ <;> rw [hp] at hs
      · by_cases hdt : d ≤ t
        · simp only [if_pos hdt, Option.some.injEq] at hs
          subst hs
          exact Or.inr (Or.inl ⟨rfl, hc⟩)
        · simp [if_neg hdt] at hs
      · simp at hs
      · simp at hs
  | irq =>
      simp only [step] at hs
      rcases hinv with ⟨hp, hc⟩ | ⟨hp, hc⟩ | ⟨hp, hc⟩ <;> rw [hp] at hs
      · simp at hs
      · simp only [stm32_oneshot_handler, Option.some.injEq] at hs
        subst hs
        exact Or.inr (Or.inr ⟨rfl, by simp [hc]⟩)
      · simp at hs
  | cancel t => simp [Label.isCancel] at hl

/-- A cancel-free run preserves the armed-interval invariant. -/
lemma run_preserves_NCInv {d n : Nat} :
    ∀ (ls : List Label) (st st' : TicklessState),
      (∀ l ∈ ls, l.isCancel = false) → NCInv d n st →
      run st ls = some st' → NCInv d n st' := by
  intro ls
  induction ls with
  | nil =>
      intro st st' _ hinv hr
      simp only [run, Option.some.injEq] at hr
      exact hr ▸ hinv
  | cons l rest ih =>
      intro st st' hnc hinv hr
      simp only [run] at hr
      cases hstep : step st l with
      | none => rw [hstep] at hr; simp at hr
      | some st1 =>
          rw [hstep] at hr
          exact ih st1 st'
            (fun x hx => hnc x (List.mem_cons_of_mem l hx))
            (step_preserves_NCInv (hnc l (List.mem_cons_self l rest))
              hinv hstep) hr

/-- Under the armed-interval invariant, a cancel issued at or after the
deadline leaves the alarm idle with exactly one notification delivered in
total for the interval. -/
lemma cancel_resolves {d n t : Nat} {st st' : TicklessState}
    (hinv : NCInv d n st) (hdt : d ≤ t)
    (hs : step st (.cancel t) = some st') :
    st'.oneshot.phase = .idle ∧ st'.test_cnt = n + 1 := by
  simp only [step, up_timer_cancel, stm32_oneshot_cancel] at hs
  rcases hinv with ⟨hp, hc⟩ | ⟨hp, hc⟩ | ⟨hp, hc⟩ <;> rw [hp] at hs
  · have hnlt : ¬ t < d := by omega
    simp [stm32_oneshot_handler, hnlt] at hs
    subst hs
    exact ⟨rfl, by simp [hc]⟩
  · simp [stm32_oneshot_handler] at hs
    subst hs
    exact ⟨rfl, by simp [hc]⟩
  · simp [stm32_oneshot_handler] at hs
    subst hs
    exact ⟨hp, hc⟩

/-- Once the alarm is idle, any further run keeps it idle and delivers no
further notification. -/
lemma run_idle_stable :
    ∀ (ls : List Label) (st st' : TicklessState),
      st.oneshot.phase = .idle → run st ls = some st' →
      st'.oneshot.phase = .idle ∧ st'.test_cnt = st.test_cnt := by
  intro ls
  induction ls with
  | nil =>
      intro st st' _ hr
      simp only [run, Option.some.injEq] at hr
      exact hr ▸ ⟨by assumption, rfl⟩
  | cons l rest ih =>
      intro st st' hidle hr
      simp only [run] at hr
      cases l with
      | expire t => rw [step] at hr; rw [hidle] at hr; simp at hr
      | irq => rw [step] at hr; rw [hidle] at hr; simp at hr
      | cancel t =>
          rw [step] at hr
          simp only [up_timer_cancel, stm32_oneshot_cancel] at hr
          rw [hidle] at hr
          simp only at hr
          exact ih _ _ hidle hr

/-- Running a concatenation of label sequences runs them in order. -/
lemma run_append :
    ∀ (xs ys : List Label) (st : TicklessState),
      run st (xs ++ ys) = (run st xs).bind fun s => run s ys := by
  intro xs
  induction xs with
  | nil => intro ys st; simp [run]
  | cons l ls ih =>
      intro ys st
      simp only [List.cons_append, run]
      cases step st l with
      | none => simp
      | some st' => simp [ih]

/-- The round-up tick conversion schedules an expiry no earlier than the
requested interval and within one tick resolution of it: the native
deadline, converted back to microseconds, lies in
`[interval, interval + res)`. -/
lemma ticksFromTs_bounds (ts : timespec) {res : Nat} (hres : 0 < res) :
    usecOfTs ts ≤ ticksFromTs ts res * res ∧
    ticksFromTs ts res * res < usecOfTs ts + res := by
  unfold ticksFromTs
  have h1 : (usecOfTs ts + res - 1) / res * res ≤ usecOfTs ts + res - 1 :=
    Nat.div_mul_le_self _ _
  have h2 : usecOfTs ts + res - 1 <
      (usecOfTs ts + res - 1) / res * res + res :=
    Nat.lt_div_mul_add hres
  omega

/-- Cancelling always succeeds, whatever the alarm state and time. -/
lemma up_timer_cancel_ok (st : TicklessState) (now : Nat) :
    ∃ r, up_timer_cancel st now = .ok r := by
  dsimp only [up_timer_cancel]
  split <;> exact ⟨_, rfl⟩

/-- Reading the time always succeeds. -/
lemma up_timer_gettime_ok (st : TicklessState) (e : Nat) :
    ∃ r, up_timer_gettime st e = .ok r :=
  ⟨_, rfl⟩

/-- The contract-level outcome C1 requires of initialization: completion
with the counter running, both peripherals at the shared resolution, the
alarm disarmed, and no arm, disarm or expiry-notification event. -/
def InitContractOk (cfg : Config) (r : InitResult) : Prop :=
  ∃ s evs, r = .completed s evs ∧
    s.freerun.running = true ∧
    s.freerun.resolution = cfg.usecPerTick ∧
    s.oneshot.resolution = cfg.usecPerTick ∧
    s.oneshot.phase = .idle ∧
    ∀ e ∈ evs, e.isArm = false ∧ e.isDisarm = false ∧ e.isNotify = false

/-- C1: `up_timer_initialize` initializes the counter peripheral and the
alarm peripheral with the shared tick resolution `CONFIG_USEC_PER_TICK`
and, on return, leaves the counter running and the alarm disarmed,
performing no alarm arming, cancelling, or expiry notification as part of
its contract (the diagnostic start/cancel sweep of source lines 322-367 is
the anomaly excluded from the specified design by spec section 9 and by
the claim itself, and is not part of the contract-level definition). -/
theorem claim_C1_initialize_contract (env : HwEnv) (cfg : Config)
    (h1 : env.oneshotOk = true) (h2 : env.freerunOk = true) :
    InitContractOk cfg ( up_timer_initialize env cfg) := by
  obtain ⟨o, f⟩ := env
  cases h1
  cases h2
  refine ⟨_, _, rfl, rfl, rfl, rfl, rfl, ?_⟩
  intro e he
  simp only [List.mem_cons, List.not_mem_nil, or_false] at he
  rcases he with h | h <;> subst h <;>
    exact ⟨rfl, rfl, rfl⟩

/-- Witness for C1 at a concrete environment and configuration. -/
theorem claim_C1_initialize_contract_witness :
    (⟨true, true⟩ : HwEnv).oneshotOk = true ∧
    (⟨true, true⟩ : HwEnv).freerunOk = true ∧
    InitContractOk ⟨2, 5, 100⟩
      ( up_timer_initialize ⟨true, true⟩ ⟨2, 5, 100⟩) :=
  ⟨rfl, rfl, claim_C1_initialize_contract ⟨true, true⟩ ⟨2, 5, 100⟩ rfl rfl⟩

/-- C2: if either the one-shot alarm peripheral's or the free-running
counter peripheral's initialization fails, `up_timer_initialize` halts the
system via `PANIC()` (source lines 305-309 and 316-320) rather than
returning an error to its caller; its C return type is `void`, so the
model's only outcomes are `panicked` and `completed`. -/
theorem claim_C2_init_failure_panics (env : HwEnv) (cfg : Config)
    (h : env.oneshotOk = false ∨ env.freerunOk = false) :
    up_timer_initialize env cfg = .panicked := by
  obtain ⟨o, f⟩ := env
  rcases h with h | h <;> cases h
  · rfl
  · cases o <;> rfl

/-- Witness for C2: the oneshot peripheral fails to initialize. -/
theorem claim_C2_init_failure_panics_witness :
    ((⟨false, true⟩ : HwEnv).oneshotOk = false ∨
      (⟨false, true⟩ : HwEnv).freerunOk = false) ∧
    up_timer_initialize ⟨false, true⟩ ⟨2, 5, 100⟩ = .panicked :=
  ⟨Or.inl rfl,
    claim_C2_init_failure_panics ⟨false, true⟩ ⟨2, 5, 100⟩ (Or.inl rfl)⟩

/-- C9: every invocation of the expiry bridge `stm32_oneshot_handler`
performs exactly one `sched_timer_expiration` call (its event list is the
singleton notification) and exactly one increment of the module counter
`test_cnt`, and mutates no other tickless-clock state (both peripheral
halves are returned unchanged). -/
theorem claim_C9_handler_exactly_one (st : TicklessState) :
    (stm32_oneshot_handler st).2 = [.schedTimerExpiration] ∧
    (stm32_oneshot_handler st).1.test_cnt = st.test_cnt + 1 ∧
    (stm32_oneshot_handler st).1.oneshot = st.oneshot ∧
    (stm32_oneshot_handler st).1.freerun = st.freerun :=
  ⟨rfl, rfl, rfl, rfl⟩

/-- C10: `up_timer_gettime` reads only the free-running counter half of
the singleton: every call succeeds and returns the one-shot alarm state
(phase, deadline, registered callback) and the module counter
unchanged. -/
theorem claim_C10_gettime_frame (st : TicklessState) (e : Nat) :
    ∃ st' ts, up_timer_gettime st e = .ok (st', ts) ∧
      st'.oneshot = st.oneshot ∧ st'.test_cnt = st.test_cnt :=
  ⟨_, _, rfl, rfl, rfl⟩

/-- A zero interval converts to zero ticks. -/
lemma ticksFromTs_zero (res : Nat) : ticksFromTs ⟨0, 0⟩ res = 0 := by
  have h : usecOfTs ⟨0, 0⟩ = 0 := rfl
  unfold ticksFromTs
  rw [h]
  cases res with
  | zero => rfl
  | succ n => exact Nat.div_eq_of_lt (by omega)

/-- C3: after initialization, successive `up_timer_gettime` readings are
non-decreasing, including across a wrap-around of the free-running
counter, and the nanoseconds component of each reading lies in
`[0, 1e9)`.  Read instants are elapsed tick counts; the schedule is
admissible when consecutive reads are separated by less than one counter
wrap, the physical condition for software wrap extension.  The last
conjunct identifies each `up_timer_gettime` call with one
`freerun_counter_core` read step of the sequence. -/
theorem claim_C3_gettime_monotone (chan res : Nat) (es : List Nat)
    (h : gapsOk 0 es = true) :
    tsSorted (readSeq (initFreerun chan res) es) ∧
    (∀ ts ∈ readSeq (initFreerun chan res) es, ts.tv_nsec < 1000000000) ∧
    (∀ st e, up_timer_gettime st e =
      .ok ({ st with freerun := (freerun_counter_core st.freerun e).1 },
        (freerun_counter_core st.freerun e).2)) := by
  refine ⟨?_, ?_, fun st e => rfl⟩
  · exact tsSorted_tail
      (readSeq_sorted_from res es (initFreerun chan res) 0 rfl ⟨rfl, rfl⟩ h)
  · intro ts hts
    exact readSeq_nsec es _ ts hts

/-- Witness for C3: two reads straddling the 32-bit wrap point. -/
theorem claim_C3_gettime_monotone_witness :
    gapsOk 0 [4294967290, 4294967299] = true ∧
    (tsSorted (readSeq (initFreerun 5 100) [4294967290, 4294967299]) ∧
     (∀ ts ∈ readSeq (initFreerun 5 100) [4294967290, 4294967299],
       ts.tv_nsec < 1000000000) ∧
     (∀ st e, up_timer_gettime st e =
       .ok ({ st with freerun := (freerun_counter_core st.freerun e).1 },
         (freerun_counter_core st.freerun e).2))) :=
  ⟨by decide,
    claim_C3_gettime_monotone 5 100 [4294967290, 4294967299] (by decide)⟩

/-- C4: `up_timer_cancel` with no alarm armed returns success with
remaining time zero, the state unchanged and no expiry notification; and
neither cancel (on any state) nor gettime has any failure path. -/
theorem claim_C4_cancel_idle_total (st : TicklessState) (now : Nat)
    (h : st.oneshot.phase = .idle) :
    up_timer_cancel st now = .ok (st, ⟨0, 0⟩, [.alarmDisarm]) ∧
    (∀ st2 n2, ∃ r, up_timer_cancel st2 n2 = .ok r) ∧
    (∀ st3 e3, ∃ r, up_timer_gettime st3 e3 = .ok r) := by
  refine ⟨?_, fun st2 n2 => up_timer_cancel_ok st2 n2,
    fun st3 e3 => up_timer_gettime_ok st3 e3⟩
  simp [up_timer_cancel, stm32_oneshot_cancel, h]

/-- Witness for C4 at a concrete idle state. -/
theorem claim_C4_cancel_idle_total_witness :
    (⟨⟨2, 100, .idle, false⟩, ⟨5, 100, true, 0, 0⟩, 0⟩ :
      TicklessState).oneshot.phase = .idle ∧
    ( up_timer_cancel ⟨⟨2, 100, .idle, false⟩, ⟨5, 100, true, 0, 0⟩, 0⟩ 42 =
        .ok (⟨⟨2, 100, .idle, false⟩, ⟨5, 100, true, 0, 0⟩, 0⟩,
          ⟨0, 0⟩, [.alarmDisarm]) ∧
      (∀ st2 n2, ∃ r, up_timer_cancel st2 n2 = .ok r) ∧
      (∀ st3 e3, ∃ r, up_timer_gettime st3 e3 = .ok r)) :=
  ⟨rfl, claim_C4_cancel_idle_total
    ⟨⟨2, 100, .idle, false⟩, ⟨5, 100, true, 0, 0⟩, 0⟩ 42 rfl⟩

/-- C7: an interval of zero is a legal argument to `up_timer_start`: when
the peripheral accepts the request it succeeds and arms the alarm at the
current instant (an almost immediate expiry) instead of rejecting it;
and `up_timer_start` fails only when the peripheral cannot accept a new
deadline, reporting `BusyFault` from the single attempt with no internal
retry. -/
theorem claim_C7_zero_interval_legal (st : TicklessState) (now : Nat) :
    (∃ st', up_timer_start st false now ⟨0, 0⟩ = .ok st' ∧
      st'.oneshot.phase = .armed now) ∧
    (∀ ts, up_timer_start st true now ts = .error .BusyFault) ∧
    (∀ busy ts f, up_timer_start st busy now ts = .error f →
      busy = true ∧ f = .BusyFault) := by
  refine ⟨⟨_, rfl, ?_⟩, fun ts => rfl, ?_⟩
  · simp [stm32_oneshot_start, ticksFromTs_zero]
  · intro busy ts f hf
    cases busy with
    | false => simp [up_timer_start, stm32_oneshot_start] at hf
    | true =>
        refine ⟨rfl, ?_⟩
        simp [up_timer_start, stm32_oneshot_start] at hf
        exact hf.symm

/-- Witness for C7 at a concrete state and time. -/
theorem claim_C7_zero_interval_legal_witness :
    (∃ st', up_timer_start
        ⟨⟨2, 100, .idle, false⟩, ⟨5, 100, true, 0, 0⟩, 0⟩ false 7 ⟨0, 0⟩ =
        .ok st' ∧ st'.oneshot.phase = .armed 7) ∧
    (∀ ts, up_timer_start
        ⟨⟨2, 100, .idle, false⟩, ⟨5, 100, true, 0, 0⟩, 0⟩ true 7 ts =
        .error .BusyFault) ∧
    (∀ busy ts f, up_timer_start
        ⟨⟨2, 100, .idle, false⟩, ⟨5, 100, true, 0, 0⟩, 0⟩ busy 7 ts =
        .error f → busy = true ∧ f = .BusyFault) :=
  claim_C7_zero_interval_legal
    ⟨⟨2, 100, .idle, false⟩, ⟨5, 100, true, 0, 0⟩, 0⟩ 7

/-- C8: every peripheral-level fault is converted at the tickless-clock
boundary into one of the two defined error kinds: `initialize` never
returns an error value (its outcomes are completion or a halt),
`gettime` and `cancel` always succeed, and the only fault `start` can
surface to the caller is `BusyFault`; no raw hardware-specific code is
passed upward. -/
theorem claim_C8_fault_boundary :
    (∀ env cfg, up_timer_initialize env cfg = .panicked ∨
      ∃ s evs, up_timer_initialize env cfg = .completed s evs) ∧
    (∀ st e, ∃ r, up_timer_gettime st e = .ok r) ∧
    (∀ st now, ∃ r, up_timer_cancel st now = .ok r) ∧
    (∀ st busy now ts f,
      up_timer_start st busy now ts = .error f → f = .BusyFault) := by
  refine ⟨?_, fun st e => up_timer_gettime_ok st e,
    fun st now => up_timer_cancel_ok st now, ?_⟩
  · intro env cfg
    obtain ⟨o, f⟩ := env
    cases o with
    | false => exact Or.inl rfl
    | true =>
        cases f with
        | false => exact Or.inl rfl
        | true => exact Or.inr ⟨_, _, rfl⟩
  · intro st busy now ts f hf
    cases busy with
    | false => simp [up_timer_start, stm32_oneshot_start] at hf
    | true =>
        simp [up_timer_start, stm32_oneshot_start] at hf
        exact hf.symm

/-- C5: for an armed interval, when `up_timer_cancel` races with the
hardware deadline having just elapsed (the first cancel arrives at or
after the deadline, in any interleaving with the hardware latch and the
expiry interrupt service), exactly one expiry notification is delivered
for that interval — never two, never zero — and once the cancel returns
the alarm is idle and never fires afterward for the canceled interval,
whatever steps follow. -/
theorem claim_C5_cancel_race_exactly_once
    (d t n : Nat) (st0 stF : TicklessState) (pre post : List Label)
    (h0 : st0.oneshot.phase = .armed d) (hn : st0.test_cnt = n)
    (hpre : ∀ l ∈ pre, l.isCancel = false) (hdt : d ≤ t)
    (hrun : run st0 (pre ++ .cancel t :: post) = some stF) :
    stF.test_cnt = n + 1 ∧ stF.oneshot.phase = .idle := by
  rw [run_append] at hrun
  cases h1 : run st0 pre with
  | none => rw [h1] at hrun; simp at hrun
  | some st1 =>
      rw [h1] at hrun
      simp only [Option.some_bind] at hrun
      have hinv1 : NCInv d n st1 :=
        run_preserves_NCInv pre st0 st1 hpre (Or.inl ⟨h0, hn⟩) h1
      simp only [run] at hrun
      cases h2 : step st1 (.cancel t) with
      | none => rw [h2] at hrun; simp at hrun
      | some st2 =>
          rw [h2] at hrun
          obtain ⟨hidle, hcnt⟩ := cancel_resolves hinv1 hdt h2
          obtain ⟨hidleF, hcntF⟩ := run_idle_stable post st2 stF hidle hrun
          exact ⟨by omega, hidleF⟩

/-- Witness for C5: the deadline latches in hardware, then the cancel
arrives before the interrupt is serviced; a later spurious interrupt
service attempt is impossible and one more cancel changes nothing. -/
theorem claim_C5_cancel_race_exactly_once_witness :
    ((⟨⟨2, 100, .armed 5, true⟩, ⟨5, 100, true, 0, 0⟩, 0⟩ :
        TicklessState).oneshot.phase = .armed 5) ∧
    ((⟨⟨2, 100, .armed 5, true⟩, ⟨5, 100, true, 0, 0⟩, 0⟩ :
        TicklessState).test_cnt = 0) ∧
    (∀ l ∈ [Label.expire 5], l.isCancel = false) ∧
    5 ≤ 6 ∧
    (∃ stF, run ⟨⟨2, 100, .armed 5, true⟩, ⟨5, 100, true, 0, 0⟩, 0⟩
        ([Label.expire 5] ++ .cancel 6 :: [Label.cancel 9]) = some stF ∧
      stF.test_cnt = 0 + 1 ∧ stF.oneshot.phase = .idle) := by
  refine ⟨rfl, rfl, by decide, by decide, ?_⟩
  cases hF : run ⟨⟨2, 100, .armed 5, true⟩, ⟨5, 100, true, 0, 0⟩, 0⟩
      ([Label.expire 5] ++ .cancel 6 :: [Label.cancel 9]) with
  | none => exact absurd hF (by decide)
  | some stF =>
      exact ⟨stF, rfl, claim_C5_cancel_race_exactly_once 5 6 0 _ stF
        [Label.expire 5] [Label.cancel 9] rfl rfl (by decide) (by decide) hF⟩

/-- C6: a successful `up_timer_start` arms the alarm at deadline
`now + ticks` where the tick conversion of the interval lands within one
tick resolution of the requested interval (the first two bounds); along
any subsequent cancel-free run at most one expiry notification is
delivered, and the completion in which the deadline latches and its
interrupt is serviced delivers exactly one `sched_timer_expiration`
(via the bridge, which thereby fires at most once per start). -/
theorem claim_C6_start_exactly_one (st : TicklessState) (now : Nat)
    (ts : timespec) (hres : 0 < st.oneshot.resolution) :
    ∃ st', up_timer_start st false now ts = .ok st' ∧
      st'.oneshot.phase =
        .armed (now + ticksFromTs ts st.oneshot.resolution) ∧
      usecOfTs ts ≤
        ticksFromTs ts st.oneshot.resolution * st.oneshot.resolution ∧
      ticksFromTs ts st.oneshot.resolution * st.oneshot.resolution <
        usecOfTs ts + st.oneshot.resolution ∧
      (∀ ls stF, (∀ l ∈ ls, l.isCancel = false) →
        run st' ls = some stF → stF.test_cnt ≤ st.test_cnt + 1) ∧
      (∀ t, now + ticksFromTs ts st.oneshot.resolution ≤ t →
        ∃ stE, run st' [.expire t, .irq] = some stE ∧
          stE.test_cnt = st.test_cnt + 1) := by
  obtain ⟨hlo, hhi⟩ := ticksFromTs_bounds ts hres
  refine ⟨_, rfl, rfl, hlo, hhi, ?_, ?_⟩
  · intro ls stF hnc hrun
    have hinv : NCInv (now + ticksFromTs ts st.oneshot.resolution)
        st.test_cnt stF :=
      run_preserves_NCInv ls
        ⟨⟨st.oneshot.chan, st.oneshot.resolution,
          .armed (now + ticksFromTs ts st.oneshot.resolution), true⟩,
          st.freerun, st.test_cnt⟩ stF hnc (Or.inl ⟨rfl, rfl⟩) hrun
    rcases hinv with ⟨_, hc⟩ | ⟨_, hc⟩ | ⟨_, hc⟩ <;> omega
  · intro t ht
    refine ⟨⟨⟨st.oneshot.chan, st.oneshot.resolution, .idle, true⟩,
      st.freerun, st.test_cnt + 1⟩, ?_, rfl⟩
    simp only [run, step, stm32_oneshot_handler, if_pos ht]

/-- Witness for C6 at a concrete state, instant and interval. -/
theorem claim_C6_start_exactly_one_witness :
    0 < (⟨⟨2, 100, .idle, false⟩, ⟨5, 100, true, 0, 0⟩, 3⟩ :
      TicklessState).oneshot.resolution ∧
    (∃ st', up_timer_start
        ⟨⟨2, 100, .idle, false⟩, ⟨5, 100, true, 0, 0⟩, 3⟩ false 7
        ⟨0, 250000⟩ = .ok st' ∧
      st'.oneshot.phase = .armed (7 + ticksFromTs ⟨0, 250000⟩ 100) ∧
      usecOfTs ⟨0, 250000⟩ ≤ ticksFromTs ⟨0, 250000⟩ 100 * 100 ∧
      ticksFromTs ⟨0, 250000⟩ 100 * 100 < usecOfTs ⟨0, 250000⟩ + 100 ∧
      (∀ ls stF, (∀ l ∈ ls, l.isCancel = false) →
        run st' ls = some stF → stF.test_cnt ≤ 3 + 1) ∧
      (∀ t, 7 + ticksFromTs ⟨0, 250000⟩ 100 ≤ t →
        ∃ stE, run st' [.expire t, .irq] = some stE ∧
          stE.test_cnt = 3 + 1)) :=
  ⟨by decide, claim_C6_start_exactly_one
    ⟨⟨2, 100, .idle, false⟩, ⟨5, 100, true, 0, 0⟩, 3⟩ 7 ⟨0, 250000⟩
    (by decide)⟩

end Stm32Tickless
